import Mathlib

/-!
Shallow embedding of the inventory-management backend (`src/backend/app.py`).

The four SQLite tables (categories, products, sales, stock_logs) become lists
inside a `DB` record.  Numeric JSON values and SQLite numeric columns are
modelled as `ℚ` (SQLite columns are dynamically typed, and the Python code
performs plain float arithmetic on them); values passed through Python's
`int(...)` are modelled as `ℤ`; row ids are `ℕ`; timestamps are `ℤ` (seconds,
`DATE(ts)` is floor division by 86400).  Each Flask handler becomes a function
from the current database, a clock value, and the parsed JSON payload to
`Except Err (new database × response)`; returning an error corresponds to the
handler's `format_error` return after rollback, so the database is unchanged.
-/

namespace IMS

/-- Error taxonomy: each constructor corresponds to one family of
`format_error` returns in `app.py` (the carried strings are the literal
messages; `insufficientStock` carries the two values interpolated into
`"Insufficient stock. Available: {current_stock}, Requested: {quantity}"`). -/
inductive Err where
  | invalidArgument (msg : String)
  | notFound (msg : String)
  | conflict (msg : String)
  | insufficientStock (available requested : ℚ)
  deriving Repr, DecidableEq

/-- A row of the `categories` table. -/
structure Category where
  id : ℕ
  name : String
  deriving Repr, DecidableEq

/-- A row of the `products` table. -/
structure Product where
  id : ℕ
  name : String
  sku : String
  category_id : ℕ
  price : ℚ
  purchasing_price : ℚ
  stock_quantity : ℚ
  min_stock_level : ℤ
  created_at : ℤ
  updated_at : ℤ
  deriving Repr, DecidableEq

/-- A row of the `sales` table. -/
structure Sale where
  id : ℕ
  product_id : ℕ
  quantity : ℚ
  total_price : ℚ
  sale_date : ℤ
  deriving Repr, DecidableEq

/-- A row of the `stock_logs` table (the autoincrement id column is not
referenced anywhere in the code and is omitted). -/
structure StockLog where
  product_id : ℕ
  change_amount : ℚ
  reason : String
  timestamp : ℤ
  deriving Repr, DecidableEq

/-- The whole SQLite database, plus the autoincrement counters for the two
tables whose generated ids the code reads back via `lastrowid`. -/
structure DB where
  categories : List Category
  products : List Product
  sales : List Sale
  stock_logs : List StockLog
  next_product_id : ℕ
  next_sale_id : ℕ
  deriving Repr, DecidableEq

/-- A fresh database right after `init_db` (no products, sales or logs;
autoincrement counters start at 1). -/
def initDB (cats : List Category) : DB :=
  ⟨cats, [], [], [], 1, 1⟩

/-- `SELECT ... FROM products WHERE id = ?`. -/
def findProduct (db : DB) (pid : ℕ) : Option Product :=
  db.products.find? (fun p => p.id = pid)

/-- `SELECT id FROM categories WHERE id = ?`. -/
def findCategory (db : DB) (cid : ℕ) : Option Category :=
  db.categories.find? (fun c => c.id = cid)

/-- Decidable equality of handler results, for evaluating concrete runs. -/
instance {e a : Type} [DecidableEq e] [DecidableEq a] : DecidableEq (Except e a) :=
  fun x y =>
    match x, y with
    | .error e1, .error e2 =>
      if h : e1 = e2 then isTrue (by rw [h])
      else isFalse (by intro hc; cases hc; exact h rfl)
    | .ok v1, .ok v2 =>
      if h : v1 = v2 then isTrue (by rw [h])
      else isFalse (by intro hc; cases hc; exact h rfl)
    | .error e1, .ok v2 => isFalse (by intro hc; cases hc)
    | .ok v1, .error e2 => isFalse (by intro hc; cases hc)

/-- Python's `str.strip()`: drop leading and trailing whitespace, defined
structurally over the character list so that it evaluates inside proofs. -/
def pyStrip (s : String) : String :=
  ⟨((s.data.dropWhile Char.isWhitespace).reverse.dropWhile Char.isWhitespace).reverse⟩

/-- The store-level `INSERT INTO products`: the `UNIQUE` constraint on `sku`
makes the insert itself fail (`sqlite3.IntegrityError`) when a row with the
same sku already exists; on success the autoincrement counter advances. -/
def insertProductRow (db : DB) (prod : Product) : Except Unit DB :=
  if db.products.any (fun p => p.sku = prod.sku) then .error ()
  else .ok { db with products := db.products ++ [prod],
                     next_product_id := db.next_product_id + 1 }

/-- JSON payload of `POST /api/products`; `none` models an absent key. -/
structure CreateReq where
  name : Option String
  sku : Option String
  category_id : Option ℕ
  price : Option ℚ
  purchasing_price : Option ℚ
  stock_quantity : Option ℤ
  min_stock_level : Option ℤ
  deriving Repr, DecidableEq

/-- `create_product` (`POST /api/products`): required-field check, strip and
validate, pre-check sku uniqueness, check the category, insert the product,
and log `'Initial stock'` when the initial quantity is positive.  A store
level `IntegrityError` from the insert is translated to the same
`"SKU already exists"` error. -/
def create_product (db : DB) (now : ℤ) (r : CreateReq) :
    Except Err (DB × ℕ) :=
  if r.name.isNone then .error (.invalidArgument "name is required")
  else if r.sku.isNone then .error (.invalidArgument "sku is required")
  else if r.category_id.isNone then .error (.invalidArgument "category_id is required")
  else if r.price.isNone then .error (.invalidArgument "price is required")
  else if r.purchasing_price.isNone then .error (.invalidArgument "purchasing_price is required")
  else
    let name := pyStrip (r.name.getD "")
    let sku := pyStrip (r.sku.getD "")
    let category_id := r.category_id.getD 0
    let price := r.price.getD 0
    let purchasing_price := r.purchasing_price.getD 0
    let stock_quantity : ℤ := r.stock_quantity.getD 0
    let min_stock_level : ℤ := r.min_stock_level.getD 5
    if name = "" ∨ sku = "" then
      .error (.invalidArgument "Name and SKU are required")
    else if price ≤ 0 then
      .error (.invalidArgument "Price must be greater than 0")
    else if purchasing_price < 0 then
      .error (.invalidArgument "Purchasing price cannot be negative")
    else if stock_quantity < 0 then
      .error (.invalidArgument "Stock quantity cannot be negative")
    else if (db.products.find? (fun p => p.sku = sku)).isSome then
      .error (.conflict "SKU already exists")
    else if (findCategory db category_id).isNone then
      .error (.notFound "Category not found")
    else
      let pid := db.next_product_id
      let prod : Product :=
        ⟨pid, name, sku, category_id, price, purchasing_price,
         (stock_quantity : ℚ), min_stock_level, now, now⟩
      match insertProductRow db prod with
      | .error _ => .error (.conflict "SKU already exists")
      | .ok db1 =>
        if 0 < stock_quantity then
          .ok ({ db1 with stock_logs :=
                   db1.stock_logs ++ [⟨pid, (stock_quantity : ℚ), "Initial stock", now⟩] },
               pid)
        else .ok (db1, pid)

/-- JSON payload of `PUT /api/products/<id>`; `none` models an absent key. -/
structure UpdateReq where
  name : Option String
  sku : Option String
  category_id : Option ℕ
  price : Option ℚ
  purchasing_price : Option ℚ
  stock_quantity : Option ℤ
  min_stock_level : Option ℤ
  deriving Repr, DecidableEq

/-- The row produced by `update_product`'s dynamically built
`UPDATE products SET ...`: every provided field overwrites the column
(name and sku stripped), `updated_at` is always refreshed. -/
def applyUpdates (r : UpdateReq) (now : ℤ) (p : Product) : Product :=
  { p with
    name := match r.name with | some n => pyStrip n | none => p.name
    sku := match r.sku with | some s => pyStrip s | none => p.sku
    category_id := r.category_id.getD p.category_id
    price := r.price.getD p.price
    purchasing_price := r.purchasing_price.getD p.purchasing_price
    stock_quantity := match r.stock_quantity with
      | some v => (v : ℚ)
      | none => p.stock_quantity
    min_stock_level := r.min_stock_level.getD p.min_stock_level
    updated_at := now }

/-- `True` when the request provides no field at all
(`"No fields to update"`). -/
def UpdateReq.isEmpty (r : UpdateReq) : Bool :=
  r.name.isNone && r.sku.isNone && r.category_id.isNone && r.price.isNone &&
    r.purchasing_price.isNone && r.stock_quantity.isNone && r.min_stock_level.isNone

/-- `update_product` (`PUT /api/products/<id>`): existence check, per-field
validation in source order, dynamic `UPDATE`, and a stock log whenever
`stock_quantity` is provided and the delta against the current value is
nonzero, with the reason chosen by the sign of the delta. -/
def update_product (db : DB) (product_id : ℕ) (now : ℤ) (r : UpdateReq) :
    Except Err DB :=
  match findProduct db product_id with
  | none => .error (.notFound "Product not found")
  | some p0 =>
    if r.name.any (fun n => pyStrip n == "") then
      .error (.invalidArgument "Name cannot be empty")
    else if r.sku.any (fun s => pyStrip s == "") then
      .error (.invalidArgument "SKU cannot be empty")
    else if r.sku.any (fun s =>
        db.products.any (fun q => q.sku == pyStrip s && q.id != product_id)) then
      .error (.conflict "SKU already exists")
    else if r.category_id.any (fun c => (findCategory db c).isNone) then
      .error (.notFound "Category not found")
    else if r.price.any (fun v => v ≤ 0) then
      .error (.invalidArgument "Price must be greater than 0")
    else if r.purchasing_price.any (fun v => v < 0) then
      .error (.invalidArgument "Purchasing price cannot be negative")
    else if r.stock_quantity.any (fun v => v < 0) then
      .error (.invalidArgument "Stock quantity cannot be negative")
    else if r.min_stock_level.any (fun v => v < 0) then
      .error (.invalidArgument "Min stock level cannot be negative")
    else if r.isEmpty then
      .error (.invalidArgument "No fields to update")
    else
      let products1 := db.products.map
        (fun p => if p.id = product_id then applyUpdates r now p else p)
      let db1 := { db with products := products1 }
      match r.stock_quantity with
      | some v =>
        let stock_change : ℚ := (v : ℚ) - p0.stock_quantity
        if stock_change ≠ 0 then
          .ok { db1 with stock_logs := db1.stock_logs ++
            [⟨product_id, stock_change,
              if 0 < stock_change then "Stock adjustment" else "Stock reduction", now⟩] }
        else .ok db1
      | none => .ok db1

/-- Successful response of `POST /api/add-sale` (`sale_id`, `total_price`,
`remaining_stock`; the JSON layer additionally rounds `total_price` to two
decimals for display). -/
structure SaleResult where
  sale_id : ℕ
  total_price : ℚ
  remaining_stock : ℚ
  deriving Repr, DecidableEq

/-- `add_sale` (`POST /api/add-sale`): Python's falsy test
`not product_id or not quantity` rejects a missing or zero value, then
`quantity <= 0` is rejected; the product is read, stock sufficiency checked
(`current_stock < quantity`), and on success the stock decrement, the `sales`
insert and the `stock_logs` append happen in one transaction.  Note the code
never checks that `quantity` is an integer: any positive JSON number passes. -/
def add_sale (db : DB) (now : ℤ) (product_id? : Option ℕ) (quantity? : Option ℚ) :
    Except Err (DB × SaleResult) :=
  match product_id?, quantity? with
  | some product_id, some quantity =>
    if product_id = 0 ∨ quantity = 0 then
      .error (.invalidArgument "product_id and quantity are required")
    else if quantity ≤ 0 then
      .error (.invalidArgument "Quantity must be greater than 0")
    else
      match findProduct db product_id with
      | none => .error (.notFound "Product not found")
      | some p =>
        if p.stock_quantity < quantity then
          .error (.insufficientStock p.stock_quantity quantity)
        else
          let total_price := p.price * quantity
          let new_stock := p.stock_quantity - quantity
          let sale_id := db.next_sale_id
          .ok ({ db with
                 products := db.products.map (fun x =>
                   if x.id = product_id then
                     { x with stock_quantity := new_stock, updated_at := now }
                   else x)
                 sales := db.sales ++ [⟨sale_id, product_id, quantity, total_price, now⟩]
                 stock_logs := db.stock_logs ++
                   [⟨product_id, -quantity, "Sale #" ++ toString sale_id, now⟩]
                 next_sale_id := sale_id + 1 },
               ⟨sale_id, total_price, new_stock⟩)
  | _, _ => .error (.invalidArgument "product_id and quantity are required")

/-- `restock` (`POST /api/restock`): same falsy/positivity checks as
`add_sale`, then the stock increment and the log append with the given reason
(defaulting to `'Manual restock'`); returns the new stock level. -/
def restock (db : DB) (now : ℤ) (product_id? : Option ℕ) (quantity? : Option ℚ)
    (reason? : Option String) : Except Err (DB × ℚ) :=
  match product_id?, quantity? with
  | some product_id, some quantity =>
    if product_id = 0 ∨ quantity = 0 then
      .error (.invalidArgument "product_id and quantity are required")
    else if quantity ≤ 0 then
      .error (.invalidArgument "Quantity must be greater than 0")
    else
      match findProduct db product_id with
      | none => .error (.notFound "Product not found")
      | some p =>
        let reason := reason?.getD "Manual restock"
        let new_stock := p.stock_quantity + quantity
        .ok ({ db with
               products := db.products.map (fun x =>
                 if x.id = product_id then
                   { x with stock_quantity := new_stock, updated_at := now }
                 else x)
               stock_logs := db.stock_logs ++
                 [⟨product_id, quantity, reason, now⟩] },
             new_stock)
  | _, _ => .error (.invalidArgument "product_id and quantity are required")

/-- `DATE(ts)`: the calendar day of a timestamp, as floor division of seconds
by 86400 (floor, so it is correct for timestamps before the epoch too). -/
def dayOf (t : ℤ) : ℤ := t / 86400

/-- The `WHERE sale_date >= ?` filter of the 7-day-trend query, with
`seven_days_ago = now - 7 days`. -/
def salesInWindow (db : DB) (now : ℤ) : List Sale :=
  db.sales.filter (fun s => now - 7 * 86400 ≤ s.sale_date)

/-- `COALESCE(SUM(total_price), 0)` grouped by `DATE(sale_date)`: the total
sale amount of calendar day `d` within a list of sale rows (0 when the day
has no rows, matching `sales_data.get(date_str, 0.0)`). -/
def dailyTotal (sales : List Sale) (d : ℤ) : ℚ :=
  ((sales.filter (fun s => dayOf s.sale_date = d)).map (fun s => s.total_price)).sum

/-- The `sales_trend` list built by `dashboard_stats`: for `i = 0..6` the
day of `now - (6-i) days` paired with that day's total taken from the
window-filtered, day-grouped query result. -/
def sales_trend (db : DB) (now : ℤ) : List (ℤ × ℚ) :=
  (List.range 7).map (fun i =>
    let d := dayOf (now - ((6 - i : ℕ) : ℤ) * 86400)
    (d, dailyTotal (salesInWindow db now) d))

/-- One row of the `GET /api/sales` response (`sales` joined with
`products` for the product name and sku). -/
structure SaleView where
  id : ℕ
  product_id : ℕ
  product_name : String
  sku : String
  quantity : ℚ
  total_price : ℚ
  sale_date : ℤ
  deriving Repr, DecidableEq

/-- The `JOIN products p ON s.product_id = p.id` of `get_sales`: each sale row
paired with its product's name and sku (rows whose product id matches no
product are dropped by the inner join). -/
def joinedSales (db : DB) : List SaleView :=
  db.sales.filterMap (fun s =>
    (findProduct db s.product_id).map (fun p =>
      ⟨s.id, s.product_id, p.name, p.sku, s.quantity, s.total_price, s.sale_date⟩))

/-- Descending order on `sale_date` (`ORDER BY s.sale_date DESC`). -/
def saleViewGE (a b : SaleView) : Prop := b.sale_date ≤ a.sale_date

instance : DecidableRel saleViewGE := fun a b => by
  unfold saleViewGE; infer_instance

instance : IsTotal SaleView saleViewGE :=
  ⟨fun a b => (le_total a.sale_date b.sale_date).symm⟩

instance : IsTrans SaleView saleViewGE :=
  ⟨fun _ _ _ h1 h2 => le_trans h2 h1⟩

/-- The join sorted by `sale_date` descending, before the `LIMIT`. -/
def sortedSales (db : DB) : List SaleView :=
  List.insertionSort saleViewGE (joinedSales db)

/-- `get_sales` (`GET /api/sales`): the join, ordered by `sale_date DESC`,
truncated by the hard-coded `LIMIT 100` (the handler takes no limit or date
parameter despite its docstring). -/
def get_sales (db : DB) : List SaleView :=
  (sortedSales db).take 100

/-- One public mutating operation together with the clock value at which the
handler runs (`CURRENT_TIMESTAMP` / `datetime.now`). -/
inductive Op where
  | create (now : ℤ) (r : CreateReq)
  | update (pid : ℕ) (now : ℤ) (r : UpdateReq)
  | sale (now : ℤ) (pid? : Option ℕ) (q? : Option ℚ)
  | restock (now : ℤ) (pid? : Option ℕ) (q? : Option ℚ) (reason? : Option String)

/-- Run one operation against the database; a handler that returns an error
has rolled back, so the database is unchanged. -/
def applyOp (db : DB) (op : Op) : DB :=
  match op with
  | .create now r =>
    match create_product db now r with
    | .ok (db1, _) => db1
    | .error _ => db
  | .update pid now r =>
    match update_product db pid now r with
    | .ok db1 => db1
    | .error _ => db
  | .sale now pid? q? =>
    match add_sale db now pid? q? with
    | .ok (db1, _) => db1
    | .error _ => db
  | .restock now pid? q? reason? =>
    match restock db now pid? q? reason? with
    | .ok (db1, _) => db1
    | .error _ => db

/-- The state reached from a fresh database by a sequence of operations. -/
def runOps (cats : List Category) (ops : List Op) : DB :=
  ops.foldl applyOp (initDB cats)

/-- The stock-log rows of one product. -/
def logsFor (db : DB) (pid : ℕ) : List StockLog :=
  db.stock_logs.filter (fun l => l.product_id = pid)

/-- The running sum of `change_amount` over one product's ledger rows. -/
def ledgerSum (db : DB) (pid : ℕ) : ℚ :=
  ((logsFor db pid).map (fun l => l.change_amount)).sum

/-- The spec's central invariant: every product's cached `stock_quantity`
equals the sum of its stock-log `change_amount`s. -/
def LedgerInv (db : DB) : Prop :=
  ∀ p ∈ db.products, p.stock_quantity = ledgerSum db p.id

/-- Structural well-formedness maintained by the operations: product ids are
distinct, below the autoincrement counter, and every stock-log row references
an existing product. -/
def WF (db : DB) : Prop :=
  (db.products.map (fun p => p.id)).Nodup ∧
  (∀ p ∈ db.products, p.id < db.next_product_id) ∧
  (∀ l ∈ db.stock_logs, ∃ p ∈ db.products, p.id = l.product_id)

/-- All stocks non-negative. -/
def NonNegStock (db : DB) : Prop :=
  ∀ p ∈ db.products, 0 ≤ p.stock_quantity

/-- The ledger sum of a bare log list for one product. -/
def logSum (L : List StockLog) (pid : ℕ) : ℚ :=
  ((L.filter (fun l => l.product_id = pid)).map (fun l => l.change_amount)).sum

/-! ### Concrete sample data for witnesses -/

/-- One sample category. -/
def sampleCats : List Category := [⟨1, "Electronics"⟩]

/-- A product with unit price 10 and stock 5 (the spec's worked example). -/
def sampleProduct : Product := ⟨1, "Widget", "W-1", 1, 10, 4, 5, 5, 0, 0⟩

/-- The state after creating `sampleProduct` with initial stock 5. -/
def sampleDB : DB :=
  ⟨sampleCats, [sampleProduct], [], [⟨1, 5, "Initial stock", 0⟩], 2, 1⟩

/-- The creation request that produced `sampleProduct`. -/
def sampleCreateReq : CreateReq :=
  ⟨some "Widget", some "W-1", some 1, some 10, some 4, some 5, none⟩

/-- An update request setting `stock_quantity` to its current value 5. -/
def sampleReqSame : UpdateReq := ⟨none, none, none, none, none, some 5, none⟩

/-- Result of applying `sampleReqSame` to `sampleDB` at time 200: only
`updated_at` changes, no ledger entry. -/
def sampleAfterSame : DB :=
  ⟨sampleCats, [⟨1, "Widget", "W-1", 1, 10, 4, 5, 5, 0, 200⟩], [],
   [⟨1, 5, "Initial stock", 0⟩], 2, 1⟩

/-- The non-integral rational 5/2, given by its reduced representation. -/
def fracQ : ℚ := ⟨5, 2, by decide, by decide⟩

/-- A fresh database for exercising product creation. -/
def omitDB : DB := initDB sampleCats

/-- A creation request that omits `stock_quantity` but provides
`min_stock_level` (9). -/
def omitStockReq : CreateReq :=
  ⟨some "Gadget", some "G-1", some 1, some 20, some 5, none, some 9⟩

/-- Result of `omitStockReq` against `omitDB` at time 7: stock 0, the
provided threshold 9, and no ledger row. -/
def omitStockResultDB : DB :=
  ⟨sampleCats, [⟨1, "Gadget", "G-1", 1, 20, 5, 0, 9, 7, 7⟩], [], [], 2, 1⟩

/-- A creation request that provides `stock_quantity` (3) but omits
`min_stock_level`. -/
def omitThreshReq : CreateReq :=
  ⟨some "Gadget", some "G-1", some 1, some 20, some 5, some 3, none⟩

/-- Result of `omitThreshReq` against `omitDB` at time 7: stock 3 with its
`'Initial stock'` ledger row, and the default threshold 5. -/
def omitThreshResultDB : DB :=
  ⟨sampleCats, [⟨1, "Gadget", "G-1", 1, 20, 5, 3, 5, 7, 7⟩], [],
   [⟨1, 3, "Initial stock", 7⟩], 2, 1⟩

/-- A database with 101 sale rows, all joinable to one product. -/
def manySalesDB : DB :=
  ⟨sampleCats, [⟨1, "Widget", "W-1", 1, 10, 4, 500, 5, 0, 0⟩],
   (List.range 101).map (fun i => ⟨i + 1, 1, 1, 10, (i : ℤ)⟩),
   [], 2, 102⟩

/-! ### Characterizations of successful operations -/

theorem add_sale_ok {db : DB} {now : ℤ} {pid? : Option ℕ} {q? : Option ℚ}
    {db1 : DB} {res : SaleResult}
    (h : add_sale db now pid? q? = .ok (db1, res)) :
    ∃ pid q p, pid? = some pid ∧ q? = some q ∧ findProduct db pid = some p ∧
      0 < q ∧ q ≤ p.stock_quantity ∧
      res = ⟨db.next_sale_id, p.price * q, p.stock_quantity - q⟩ ∧
      db1 = { db with
        products := db.products.map (fun x =>
          if x.id = pid then
            { x with stock_quantity := p.stock_quantity - q, updated_at := now }
          else x)
        sales := db.sales ++ [⟨db.next_sale_id, pid, q, p.price * q, now⟩]
        stock_logs := db.stock_logs ++
          [⟨pid, -q, "Sale #" ++ toString db.next_sale_id, now⟩]
        next_sale_id := db.next_sale_id + 1 } := by
  cases pid? with
  | none => simp [add_sale] at h
  | some pid =>
    cases q? with
    | none => simp [add_sale] at h
    | some q =>
      by_cases h0 : pid = 0 ∨ q = 0
      · simp [add_sale, h0] at h
      · by_cases hle : q ≤ 0
        · simp [add_sale, h0, hle] at h
        · rcases hfp : findProduct db pid with _ | p
          · simp [add_sale, h0, hle, hfp] at h
          · by_cases hins : p.stock_quantity < q
            · simp [add_sale, h0, hle, hfp, hins] at h
            · simp only [add_sale, h0, hle, hfp, hins, if_neg, if_false,
                Except.ok.injEq, Prod.mk.injEq] at h
              exact ⟨pid, q, p, rfl, rfl, hfp, lt_of_not_le hle, le_of_not_lt hins,
                h.2.symm, h.1.symm⟩

theorem restock_ok {db : DB} {now : ℤ} {pid? : Option ℕ} {q? : Option ℚ}
    {reason? : Option String} {db1 : DB} {ns : ℚ}
    (h : restock db now pid? q? reason? = .ok (db1, ns)) :
    ∃ pid q p, pid? = some pid ∧ q? = some q ∧ findProduct db pid = some p ∧
      0 < q ∧ ns = p.stock_quantity + q ∧
      db1 = { db with
        products := db.products.map (fun x =>
          if x.id = pid then
            { x with stock_quantity := p.stock_quantity + q, updated_at := now }
          else x)
        stock_logs := db.stock_logs ++
          [⟨pid, q, reason?.getD "Manual restock", now⟩] } := by
  cases pid? with
  | none => simp [restock] at h
  | some pid =>
    cases q? with
    | none => simp [restock] at h
    | some q =>
      by_cases h0 : pid = 0 ∨ q = 0
      · simp [restock, h0] at h
      · by_cases hle : q ≤ 0
        · simp [restock, h0, hle] at h
        · rcases hfp : findProduct db pid with _ | p
          · simp [restock, h0, hle, hfp] at h
          · simp only [restock, h0, hle, hfp, if_neg, if_false,
              Except.ok.injEq, Prod.mk.injEq] at h
            exact ⟨pid, q, p, rfl, rfl, hfp, lt_of_not_le hle,
              h.2.symm, h.1.symm⟩

theorem create_product_ok {db : DB} {now : ℤ} {r : CreateReq} {db1 : DB} {pid : ℕ}
    (h : create_product db now r = .ok (db1, pid)) :
    ∃ prod : Product, pid = db.next_product_id ∧ prod.id = db.next_product_id ∧
      0 ≤ prod.stock_quantity ∧
      prod.stock_quantity = ((r.stock_quantity.getD 0 : ℤ) : ℚ) ∧
      prod.min_stock_level = r.min_stock_level.getD 5 ∧
      (∀ p ∈ db.products, p.sku ≠ prod.sku) ∧
      db1 = { db with
        products := db.products ++ [prod]
        next_product_id := db.next_product_id + 1
        stock_logs := db.stock_logs ++
          (if 0 < prod.stock_quantity then
            [⟨db.next_product_id, prod.stock_quantity, "Initial stock", now⟩]
          else []) } := by
  rcases r with ⟨name?, sku?, cid?, price?, pp?, sq?, msl?⟩
  cases name? with
  | none => simp [create_product] at h
  | some name =>
  cases sku? with
  | none => simp [create_product] at h
  | some sku =>
  cases cid? with
  | none => simp [create_product] at h
  | some cid =>
  cases price? with
  | none => simp [create_product] at h
  | some price =>
  cases pp? with
  | none => simp [create_product] at h
  | some pp =>
  simp only [create_product, Option.getD_some, Option.isNone_some, Bool.false_eq_true,
    if_false] at h
  by_cases hname : pyStrip name = "" ∨ pyStrip sku = ""
  · rw [if_pos hname] at h; exact absurd h (by simp)
  rw [if_neg hname] at h
  by_cases hprice : price ≤ 0
  · rw [if_pos hprice] at h; exact absurd h (by simp)
  rw [if_neg hprice] at h
  by_cases hpp : pp < 0
  · rw [if_pos hpp] at h; exact absurd h (by simp)
  rw [if_neg hpp] at h
  by_cases hsq : (sq?.getD 0 : ℤ) < 0
  · rw [if_pos hsq] at h; exact absurd h (by simp)
  rw [if_neg hsq] at h
  by_cases hdup : (db.products.find? (fun p => decide (p.sku = pyStrip sku))).isSome = true
  · rw [if_pos hdup] at h; exact absurd h (by simp)
  rw [if_neg hdup] at h
  by_cases hcat : (findCategory db cid).isNone = true
  · rw [if_pos hcat] at h; exact absurd h (by simp)
  rw [if_neg hcat] at h
  have hnodup : ∀ p ∈ db.products, p.sku ≠ pyStrip sku := by
    intro p hp hps
    rw [List.find?_isSome] at hdup
    exact hdup ⟨p, hp, by simp [hps]⟩
  have hins : insertProductRow db
      ⟨db.next_product_id, pyStrip name, pyStrip sku, cid, price, pp,
       ((sq?.getD 0 : ℤ) : ℚ), msl?.getD 5, now, now⟩ =
      .ok { db with
        products := db.products ++
          [⟨db.next_product_id, pyStrip name, pyStrip sku, cid, price, pp,
            ((sq?.getD 0 : ℤ) : ℚ), msl?.getD 5, now, now⟩],
        next_product_id := db.next_product_id + 1 } := by
    unfold insertProductRow
    rw [if_neg]
    simp only [List.any_eq_true, not_exists, not_and]
    intro p hp hpsku
    exact absurd (by simpa using hpsku) (hnodup p hp)
  rw [hins] at h
  simp only [] at h
  refine ⟨⟨db.next_product_id, pyStrip name, pyStrip sku, cid, price, pp,
    ((sq?.getD 0 : ℤ) : ℚ), msl?.getD 5, now, now⟩, ?_⟩
  have hsq0 : (0 : ℚ) ≤ ((sq?.getD 0 : ℤ) : ℚ) := by
    exact_mod_cast not_lt.mp hsq
  by_cases hposz : (0 : ℤ) < sq?.getD 0
  · have hpos : (0 : ℚ) < ((sq?.getD 0 : ℤ) : ℚ) := by exact_mod_cast hposz
    rw [if_pos hposz] at h
    simp only [Except.ok.injEq, Prod.mk.injEq] at h
    refine ⟨h.2.symm, rfl, hsq0, rfl, rfl, hnodup, ?_⟩
    rw [← h.1]
    simp [hpos]
  · have hpos : ¬ (0 : ℚ) < ((sq?.getD 0 : ℤ) : ℚ) := by
      intro hc
      exact hposz (by exact_mod_cast hc)
    rw [if_neg hposz] at h
    simp only [Except.ok.injEq, Prod.mk.injEq] at h
    refine ⟨h.2.symm, rfl, hsq0, rfl, rfl, hnodup, ?_⟩
    rw [← h.1]
    simp [hpos]

theorem update_product_ok {db : DB} {pid : ℕ} {now : ℤ} {r : UpdateReq} {db1 : DB}
    (h : update_product db pid now r = .ok db1) :
    ∃ p0, findProduct db pid = some p0 ∧
      (∀ v, r.stock_quantity = some v → 0 ≤ v) ∧
      db1.categories = db.categories ∧
      db1.sales = db.sales ∧
      db1.next_product_id = db.next_product_id ∧
      db1.next_sale_id = db.next_sale_id ∧
      db1.products = db.products.map
        (fun p => if p.id = pid then applyUpdates r now p else p) ∧
      db1.stock_logs = db.stock_logs ++
        (match r.stock_quantity with
         | some v =>
           if (v : ℚ) - p0.stock_quantity ≠ 0 then
             [⟨pid, (v : ℚ) - p0.stock_quantity,
               if 0 < (v : ℚ) - p0.stock_quantity then "Stock adjustment"
               else "Stock reduction", now⟩]
           else []
         | none => []) := by
  unfold update_product at h
  rcases hfp : findProduct db pid with _ | p0
  · rw [hfp] at h; exact absurd h (by simp)
  rw [hfp] at h
  simp only [] at h
  by_cases h1 : r.name.any (fun n => pyStrip n == "") = true
  · rw [if_pos h1] at h; exact absurd h (by simp)
  rw [if_neg h1] at h
  by_cases h2 : r.sku.any (fun s => pyStrip s == "") = true
  · rw [if_pos h2] at h; exact absurd h (by simp)
  rw [if_neg h2] at h
  by_cases h3 : r.sku.any (fun s =>
      db.products.any (fun q => q.sku == pyStrip s && q.id != pid)) = true
  · rw [if_pos h3] at h; exact absurd h (by simp)
  rw [if_neg h3] at h
  by_cases h4 : r.category_id.any (fun c => (findCategory db c).isNone) = true
  · rw [if_pos h4] at h; exact absurd h (by simp)
  rw [if_neg h4] at h
  by_cases h5 : r.price.any (fun v => decide (v ≤ 0)) = true
  · rw [if_pos h5] at h; exact absurd h (by simp)
  rw [if_neg h5] at h
  by_cases h6 : r.purchasing_price.any (fun v => decide (v < 0)) = true
  · rw [if_pos h6] at h; exact absurd h (by simp)
  rw [if_neg h6] at h
  by_cases h7 : r.stock_quantity.any (fun v => decide (v < 0)) = true
  · rw [if_pos h7] at h; exact absurd h (by simp)
  rw [if_neg h7] at h
  by_cases h8 : r.min_stock_level.any (fun v => decide (v < 0)) = true
  · rw [if_pos h8] at h; exact absurd h (by simp)
  rw [if_neg h8] at h
  by_cases h9 : r.isEmpty = true
  · rw [if_pos h9] at h; exact absurd h (by simp)
  rw [if_neg h9] at h
  have hval : ∀ v, r.stock_quantity = some v → 0 ≤ v := by
    intro v hv
    rw [hv] at h7
    simp only [Option.any_some, decide_eq_true_eq] at h7
    exact not_lt.mp h7
  refine ⟨p0, rfl, hval, ?_⟩
  rcases hv : r.stock_quantity with _ | v
  · rw [hv] at h
    simp only [Except.ok.injEq] at h
    rw [← h]
    simp
  · rw [hv] at h
    simp only [] at h
    split at h
    next hc =>
      simp only [Except.ok.injEq] at h
      rw [← h]
      simp [hc]
    next hc =>
      simp only [Except.ok.injEq] at h
      rw [← h]
      simp [hc]

/-! ### Ledger-sum helper lemmas -/

theorem ledgerSum_eq_logSum (db : DB) (pid : ℕ) :
    ledgerSum db pid = logSum db.stock_logs pid := rfl

theorem logSum_append (L1 L2 : List StockLog) (pid : ℕ) :
    logSum (L1 ++ L2) pid = logSum L1 pid + logSum L2 pid := by
  unfold logSum
  rw [List.filter_append, List.map_append, List.sum_append]

theorem logSum_single (l : StockLog) (pid : ℕ) :
    logSum [l] pid = if l.product_id = pid then l.change_amount else 0 := by
  by_cases hc : l.product_id = pid <;> simp [logSum, hc]

theorem logSum_eq_zero {L : List StockLog} {pid : ℕ}
    (h : ∀ l ∈ L, l.product_id ≠ pid) : logSum L pid = 0 := by
  unfold logSum
  rw [List.filter_eq_nil_iff.mpr (by intro l hl; simpa using h l hl)]
  rfl

/-- With distinct product ids, any member with the searched id is the product
returned by `findProduct`. -/
theorem findProduct_unique {l : List Product} {pid : ℕ} {p0 x : Product}
    (hnd : (l.map (fun p => p.id)).Nodup)
    (hf : l.find? (fun p => p.id = pid) = some p0)
    (hx : x ∈ l) (hid : x.id = pid) : x = p0 := by
  induction l with
  | nil => cases hx
  | cons a t ih =>
    rw [List.map_cons, List.nodup_cons] at hnd
    rcases List.mem_cons.mp hx with rfl | hxt
    · rw [List.find?_cons_of_pos _ (by simp [hid])] at hf
      exact (Option.some.injEq _ _ ▸ hf).symm ▸ rfl
    · by_cases ha : a.id = pid
      · exfalso
        exact hnd.1 (ha ▸ hid ▸ List.mem_map_of_mem (fun p => p.id) hxt)
      · rw [List.find?_cons_of_neg _ (by simp [ha])] at hf
        exact ih hnd.2 hf hxt

/-- Updating the row with one id leaves the id column of the table unchanged. -/
theorem map_update_ids (l : List Product) (pid : ℕ) (g : Product → Product)
    (hg : ∀ p, (g p).id = p.id) :
    (l.map (fun p => if p.id = pid then g p else p)).map (fun p => p.id) =
      l.map (fun p => p.id) := by
  rw [List.map_map]
  refine List.map_congr_left ?_
  intro a _
  by_cases hc : a.id = pid <;> simp [hc, hg]

/-! ### Preservation of the invariants by each operation -/

/-- Generic preservation lemma for the shared shape of `add_sale`, `restock`
and `update_product`: one product row is rewritten in place (keeping its id)
and log rows for that product are appended, with the row's new stock equal to
its old stock plus the appended ledger amounts. -/
theorem mapped_preserves {db db1 : DB} {pid : ℕ} {g : Product → Product}
    {p : Product} {L : List StockLog}
    (hfp : findProduct db pid = some p)
    (hg_id : ∀ x, (g x).id = x.id)
    (hprods : db1.products = db.products.map (fun x => if x.id = pid then g x else x))
    (hlogs : db1.stock_logs = db.stock_logs ++ L)
    (hnext : db1.next_product_id = db.next_product_id)
    (hLpid : ∀ l ∈ L, l.product_id = pid)
    (hstock : (g p).stock_quantity = p.stock_quantity + logSum L pid)
    (hwf : WF db) (hled : LedgerInv db) : WF db1 ∧ LedgerInv db1 := by
  obtain ⟨hnd, hbound, href⟩ := hwf
  have hpmem : p ∈ db.products := List.mem_of_find?_eq_some hfp
  have hpid : p.id = pid := by simpa using List.find?_some hfp
  have hids : db1.products.map (fun q => q.id) = db.products.map (fun q => q.id) := by
    rw [hprods]
    exact map_update_ids _ _ _ hg_id
  constructor
  · refine ⟨hids ▸ hnd, ?_, ?_⟩
    · intro x hx
      rw [hprods] at hx
      rw [hnext]
      rcases List.mem_map.mp hx with ⟨y, hy, rfl⟩
      by_cases hc : y.id = pid
      · rw [if_pos hc, hg_id]
        exact hbound y hy
      · rw [if_neg hc]
        exact hbound y hy
    · intro l hl
      rw [hlogs] at hl
      rcases List.mem_append.mp hl with hold | hnew
      · obtain ⟨y, hy, hyid⟩ := href l hold
        refine ⟨if y.id = pid then g y else y, ?_, ?_⟩
        · rw [hprods]
          exact List.mem_map_of_mem _ hy
        · by_cases hc : y.id = pid
          · rw [if_pos hc, hg_id]; exact hyid
          · rw [if_neg hc]; exact hyid
      · refine ⟨g p, ?_, ?_⟩
        · rw [hprods]
          have := List.mem_map_of_mem (fun x => if x.id = pid then g x else x) hpmem
          simpa [hpid] using this
        · rw [hg_id, hpid, hLpid l hnew]
  · intro x hx
    rw [hprods] at hx
    rcases List.mem_map.mp hx with ⟨y, hy, rfl⟩
    by_cases hc : y.id = pid
    · have hy_eq : y = p := findProduct_unique hnd hfp hy hc
      subst hy_eq
      rw [if_pos hc, hg_id, hstock]
      rw [ledgerSum_eq_logSum, hlogs, logSum_append, ← ledgerSum_eq_logSum]
      rw [← hled y hy, hc]
    · rw [if_neg hc]
      rw [ledgerSum_eq_logSum, hlogs, logSum_append]
      rw [logSum_eq_zero (L := L)
        (fun l hl => by rw [hLpid l hl]; exact fun hcc => hc hcc.symm)]
      rw [add_zero]
      exact hled y hy

theorem add_sale_preserves {db db1 : DB} {now : ℤ} {pid? : Option ℕ}
    {q? : Option ℚ} {res : SaleResult}
    (h : add_sale db now pid? q? = .ok (db1, res))
    (hwf : WF db) (hled : LedgerInv db) : WF db1 ∧ LedgerInv db1 := by
  obtain ⟨pid, q, p, -, -, hfp, -, -, -, hdb1⟩ := add_sale_ok h
  refine mapped_preserves hfp (g := fun x =>
      { x with stock_quantity := p.stock_quantity - q, updated_at := now })
    (L := [⟨pid, -q, "Sale #" ++ toString db.next_sale_id, now⟩])
    (fun _ => rfl) (by rw [hdb1]) (by rw [hdb1]) (by rw [hdb1])
    (by intro l hl; rw [List.mem_singleton.mp hl]) ?_ hwf hled
  rw [logSum_single, if_pos rfl]
  show p.stock_quantity - q = p.stock_quantity + -q
  ring

theorem restock_preserves {db db1 : DB} {now : ℤ} {pid? : Option ℕ}
    {q? : Option ℚ} {reason? : Option String} {ns : ℚ}
    (h : restock db now pid? q? reason? = .ok (db1, ns))
    (hwf : WF db) (hled : LedgerInv db) : WF db1 ∧ LedgerInv db1 := by
  obtain ⟨pid, q, p, -, -, hfp, -, -, hdb1⟩ := restock_ok h
  refine mapped_preserves hfp (g := fun x =>
      { x with stock_quantity := p.stock_quantity + q, updated_at := now })
    (L := [⟨pid, q, reason?.getD "Manual restock", now⟩])
    (fun _ => rfl) (by rw [hdb1]) (by rw [hdb1]) (by rw [hdb1])
    (by intro l hl; rw [List.mem_singleton.mp hl]) ?_ hwf hled
  rw [logSum_single, if_pos rfl]

theorem update_product_preserves {db db1 : DB} {pid : ℕ} {now : ℤ} {r : UpdateReq}
    (h : update_product db pid now r = .ok db1)
    (hwf : WF db) (hled : LedgerInv db) : WF db1 ∧ LedgerInv db1 := by
  obtain ⟨p0, hfp, -, -, -, hnext, -, hprods, hlogs⟩ := update_product_ok h
  rcases hv : r.stock_quantity with _ | v
  · rw [hv] at hlogs
    refine mapped_preserves hfp (g := applyUpdates r now)
      (L := []) (fun _ => rfl) hprods (by simpa using hlogs) hnext
      (by intro l hl; cases hl) ?_ hwf hled
    show (applyUpdates r now p0).stock_quantity = p0.stock_quantity + logSum [] pid
    simp [applyUpdates, hv, logSum]
  · rw [hv] at hlogs
    simp only [] at hlogs
    by_cases hc : (v : ℚ) - p0.stock_quantity ≠ 0
    · rw [if_pos hc] at hlogs
      refine mapped_preserves hfp (g := applyUpdates r now)
        (L := [⟨pid, (v : ℚ) - p0.stock_quantity,
          if 0 < (v : ℚ) - p0.stock_quantity then "Stock adjustment"
          else "Stock reduction", now⟩])
        (fun _ => rfl) hprods hlogs hnext
        (by intro l hl; rw [List.mem_singleton.mp hl]) ?_ hwf hled
      rw [logSum_single, if_pos rfl]
      show (applyUpdates r now p0).stock_quantity =
        p0.stock_quantity + ((v : ℚ) - p0.stock_quantity)
      simp [applyUpdates, hv]
    · rw [if_neg hc] at hlogs
      refine mapped_preserves hfp (g := applyUpdates r now)
        (L := []) (fun _ => rfl) hprods (by simpa using hlogs) hnext
        (by intro l hl; cases hl) ?_ hwf hled
      show (applyUpdates r now p0).stock_quantity = p0.stock_quantity + logSum [] pid
      have hc0 : (v : ℚ) = p0.stock_quantity := by
        have := not_not.mp hc
        linarith
      simp [applyUpdates, hv, logSum, hc0]

theorem create_product_preserves {db db1 : DB} {now : ℤ} {r : CreateReq} {pid : ℕ}
    (h : create_product db now r = .ok (db1, pid))
    (hwf : WF db) (hled : LedgerInv db) : WF db1 ∧ LedgerInv db1 := by
  obtain ⟨prod, -, hprodid, hsq0, -, -, -, hdb1⟩ := create_product_ok h
  obtain ⟨hnd, hbound, href⟩ := hwf
  have hprods : db1.products = db.products ++ [prod] := by rw [hdb1]
  have hlogs : db1.stock_logs = db.stock_logs ++
      (if 0 < prod.stock_quantity then
        [⟨db.next_product_id, prod.stock_quantity, "Initial stock", now⟩]
      else []) := by rw [hdb1]
  have hnext : db1.next_product_id = db.next_product_id + 1 := by rw [hdb1]
  have hLpid : ∀ l ∈ (if 0 < prod.stock_quantity then
      [(⟨db.next_product_id, prod.stock_quantity, "Initial stock", now⟩ : StockLog)]
      else []), l.product_id = db.next_product_id := by
    intro l hl
    by_cases hp : 0 < prod.stock_quantity
    · rw [if_pos hp] at hl; rw [List.mem_singleton.mp hl]
    · rw [if_neg hp] at hl; cases hl
  have hfresh : ∀ l ∈ db.stock_logs, l.product_id ≠ db.next_product_id := by
    intro l hl hcc
    obtain ⟨y, hy, hyid⟩ := href l hl
    have hb := hbound y hy
    rw [hyid, hcc] at hb
    exact lt_irrefl _ hb
  constructor
  · refine ⟨?_, ?_, ?_⟩
    · rw [hprods, List.map_append]
      refine List.Nodup.append hnd (by simp) ?_
      intro a ha hb
      rcases List.mem_map.mp ha with ⟨y, hy, rfl⟩
      simp only [List.map_cons, List.map_nil, List.mem_singleton] at hb
      have hby := hbound y hy
      rw [hb, hprodid] at hby
      exact lt_irrefl _ hby
    · intro x hx
      rw [hnext]
      rw [hprods] at hx
      rcases List.mem_append.mp hx with hold | hnewx
      · exact lt_trans (hbound x hold) (Nat.lt_succ_self _)
      · rw [List.mem_singleton.mp hnewx, hprodid]
        exact Nat.lt_succ_self _
    · intro l hl
      rw [hlogs] at hl
      rcases List.mem_append.mp hl with hold | hnewl
      · obtain ⟨y, hy, hyid⟩ := href l hold
        exact ⟨y, by rw [hprods]; exact List.mem_append_left _ hy, hyid⟩
      · refine ⟨prod, ?_, ?_⟩
        · rw [hprods]
          exact List.mem_append_right _ (List.mem_singleton_self _)
        · rw [hprodid, hLpid l hnewl]
  · intro x hx
    rw [hprods] at hx
    rcases List.mem_append.mp hx with hold | hnewx
    · rw [ledgerSum_eq_logSum, hlogs, logSum_append]
      rw [logSum_eq_zero (L := (if 0 < prod.stock_quantity then
          [(⟨db.next_product_id, prod.stock_quantity, "Initial stock", now⟩ : StockLog)]
          else []))
        (fun l hl => by
          rw [hLpid l hl]
          intro hcc
          have hb := hbound x hold
          rw [← hcc] at hb
          exact lt_irrefl _ hb)]
      rw [add_zero]
      exact hled x hold
    · rw [List.mem_singleton.mp hnewx]
      rw [ledgerSum_eq_logSum, hlogs, logSum_append]
      rw [logSum_eq_zero (L := db.stock_logs)
        (fun l hl => by rw [hprodid]; exact hfresh l hl)]
      rw [zero_add]
      by_cases hp : 0 < prod.stock_quantity
      · rw [if_pos hp, logSum_single,
          if_pos (show (⟨db.next_product_id, prod.stock_quantity, "Initial stock", now⟩ :
            StockLog).product_id = prod.id from hprodid.symm)]
      · rw [if_neg hp]
        have hz : prod.stock_quantity = 0 := le_antisymm (not_lt.mp hp) hsq0
        rw [hz]
        simp [logSum]

/-- One step preserves well-formedness and the ledger invariant. -/
theorem inv_applyOp (db : DB) (op : Op) (h : WF db ∧ LedgerInv db) :
    WF (applyOp db op) ∧ LedgerInv (applyOp db op) := by
  obtain ⟨hwf, hled⟩ := h
  cases op with
  | create now r =>
    rcases hres : create_product db now r with _ | ⟨db1, pid⟩
    · simpa [applyOp, hres] using ⟨hwf, hled⟩
    · simpa [applyOp, hres] using create_product_preserves hres hwf hled
  | update pid now r =>
    rcases hres : update_product db pid now r with _ | db1
    · simpa [applyOp, hres] using ⟨hwf, hled⟩
    · simpa [applyOp, hres] using update_product_preserves hres hwf hled
  | sale now pid? q? =>
    rcases hres : add_sale db now pid? q? with _ | ⟨db1, res⟩
    · simpa [applyOp, hres] using ⟨hwf, hled⟩
    · simpa [applyOp, hres] using add_sale_preserves hres hwf hled
  | restock now pid? q? reason? =>
    rcases hres : restock db now pid? q? reason? with _ | ⟨db1, ns⟩
    · simpa [applyOp, hres] using ⟨hwf, hled⟩
    · simpa [applyOp, hres] using restock_preserves hres hwf hled

theorem inv_foldl (db : DB) (ops : List Op) (h : WF db ∧ LedgerInv db) :
    WF (ops.foldl applyOp db) ∧ LedgerInv (ops.foldl applyOp db) := by
  induction ops generalizing db with
  | nil => simpa using h
  | cons op t ih =>
    rw [List.foldl_cons]
    exact ih _ (inv_applyOp db op h)

/-- Every state reachable from a fresh database is well formed and satisfies
the ledger invariant. -/
theorem inv_runOps (cats : List Category) (ops : List Op) :
    WF (runOps cats ops) ∧ LedgerInv (runOps cats ops) := by
  refine inv_foldl _ _ ⟨⟨by simp [initDB], ?_, ?_⟩, ?_⟩
  · intro p hp; cases hp
  · intro l hl; cases hl
  · intro p hp; cases hp

/-- Each operation preserves non-negativity of all stock quantities. -/
theorem nonneg_applyOp (db : DB) (op : Op) (h : NonNegStock db) :
    NonNegStock (applyOp db op) := by
  cases op with
  | create now r =>
    rcases hres : create_product db now r with _ | ⟨db1, pid⟩
    · simpa [applyOp, hres] using h
    · obtain ⟨prod, -, -, hsq0, -, -, -, hdb1⟩ := create_product_ok hres
      simp only [applyOp, hres]
      intro x hx
      rw [hdb1] at hx
      rcases List.mem_append.mp hx with hold | hnewx
      · exact h x hold
      · rw [List.mem_singleton.mp hnewx]
        exact hsq0
  | update pid now r =>
    rcases hres : update_product db pid now r with _ | db1
    · simpa [applyOp, hres] using h
    · obtain ⟨p0, -, hval, -, -, -, -, hprods, -⟩ := update_product_ok hres
      simp only [applyOp, hres]
      intro x hx
      rw [hprods] at hx
      rcases List.mem_map.mp hx with ⟨y, hy, rfl⟩
      by_cases hc : y.id = pid
      · rw [if_pos hc]
        rcases hv : r.stock_quantity with _ | v
        · simpa [applyUpdates, hv] using h y hy
        · have h0 : (0 : ℚ) ≤ (v : ℚ) := by exact_mod_cast hval v hv
          simpa [applyUpdates, hv] using h0
      · rw [if_neg hc]
        exact h y hy
  | sale now pid? q? =>
    rcases hres : add_sale db now pid? q? with _ | ⟨db1, res⟩
    · simpa [applyOp, hres] using h
    · obtain ⟨pid, q, p, -, -, hfp, -, hq, -, hdb1⟩ := add_sale_ok hres
      simp only [applyOp, hres]
      intro x hx
      rw [hdb1] at hx
      rcases List.mem_map.mp hx with ⟨y, hy, rfl⟩
      by_cases hc : y.id = pid
      · rw [if_pos hc]
        show (0 : ℚ) ≤ p.stock_quantity - q
        linarith
      · rw [if_neg hc]
        exact h y hy
  | restock now pid? q? reason? =>
    rcases hres : restock db now pid? q? reason? with _ | ⟨db1, ns⟩
    · simpa [applyOp, hres] using h
    · obtain ⟨pid, q, p, -, -, hfp, hq, -, hdb1⟩ := restock_ok hres
      simp only [applyOp, hres]
      intro x hx
      rw [hdb1] at hx
      rcases List.mem_map.mp hx with ⟨y, hy, rfl⟩
      by_cases hc : y.id = pid
      · rw [if_pos hc]
        have hp0 : (0 : ℚ) ≤ p.stock_quantity := h p (List.mem_of_find?_eq_some hfp)
        show (0 : ℚ) ≤ p.stock_quantity + q
        linarith
      · rw [if_neg hc]
        exact h y hy

/-! ### Calendar-day lemmas for the 7-day sales trend -/

theorem dayOf_sub_days (t k : ℤ) : dayOf (t - k * 86400) = dayOf t - k := by
  unfold dayOf
  have h : t - k * 86400 = t + (-k) * 86400 := by ring
  rw [h, Int.add_mul_ediv_right _ _ (by norm_num : (86400 : ℤ) ≠ 0)]
  ring

theorem dayOf_bounds (t : ℤ) : 86400 * dayOf t ≤ t ∧ t < 86400 * (dayOf t + 1) := by
  have h1 := Int.ediv_add_emod t 86400
  have h2 : 0 ≤ t % 86400 := Int.emod_nonneg t (by norm_num)
  have h3 : t % 86400 < 86400 := Int.emod_lt_of_pos t (by norm_num)
  unfold dayOf
  constructor <;> linarith

/-- Any timestamp whose calendar day is within the last 7 days (including
today) also passes the rolling `sale_date >= now - 7 days` filter, so the
filter never drops a row of the displayed days. -/
theorem window_covers {now ts : ℤ} (h : dayOf now - 6 ≤ dayOf ts) :
    now - 7 * 86400 ≤ ts := by
  have h1 := (dayOf_bounds ts).1
  have h2 := (dayOf_bounds now).2
  linarith

theorem dailyTotal_window (db : DB) (now d : ℤ) (hd : dayOf now - 6 ≤ d) :
    dailyTotal (salesInWindow db now) d = dailyTotal db.sales d := by
  unfold dailyTotal salesInWindow
  rw [List.filter_filter]
  congr 1
  congr 1
  refine List.filter_congr ?_
  intro s _
  by_cases hday : dayOf s.sale_date = d
  · have hw : now - 7 * 86400 ≤ s.sale_date := window_covers (hday ▸ hd)
    simp [hday]
    linarith
  · simp [hday]

/-! ### Sorting lemmas for the sales listing -/

theorem sortedSales_perm (db : DB) : (sortedSales db).Perm (joinedSales db) :=
  List.perm_insertionSort saleViewGE (joinedSales db)

theorem sortedSales_sorted (db : DB) : (sortedSales db).Sorted saleViewGE :=
  List.sorted_insertionSort saleViewGE (joinedSales db)

theorem get_sales_length (db : DB) :
    (get_sales db).length = min 100 (joinedSales db).length := by
  unfold get_sales
  rw [List.length_take, (sortedSales_perm db).length_eq]

/-! ### Claim theorems -/

/-- C1: in every state reachable from a fresh database by any sequence of
the public operations (create, update, sale, restock), every product's
`stock_quantity` equals the sum of `change_amount` over that product's
stock-log rows: creation logs the positive initial stock, a sale logs
`-quantity`, a restock logs `+quantity`, and a stock update logs the delta
new minus old. -/
theorem C1_stock_matches_ledger (cats : List Category) (ops : List Op) :
    LedgerInv (runOps cats ops) :=
  (inv_runOps cats ops).2

/-- C2: selling more than the current stock of an existing product fails
with the insufficient-stock error carrying both the available and the
requested quantity, and leaves the whole database (products, sales,
stock_logs) unchanged. -/
theorem C2_insufficient_stock (db : DB) (now : ℤ) (pid : ℕ) (q : ℚ) (p : Product)
    (hpid : pid ≠ 0) (hfp : findProduct db pid = some p)
    (hnn : 0 ≤ p.stock_quantity) (hq : p.stock_quantity < q) :
    add_sale db now (some pid) (some q) =
      .error (.insufficientStock p.stock_quantity q) ∧
    applyOp db (Op.sale now (some pid) (some q)) = db := by
  have hqpos : 0 < q := lt_of_le_of_lt hnn hq
  have h0 : ¬ (pid = 0 ∨ q = 0) := by
    rintro (hc | hc)
    · exact hpid hc
    · rw [hc] at hqpos
      exact lt_irrefl _ hqpos
  have hle : ¬ q ≤ 0 := not_le.mpr hqpos
  have herr : add_sale db now (some pid) (some q) =
      .error (.insufficientStock p.stock_quantity q) := by
    unfold add_sale
    simp only []
    rw [if_neg h0, if_neg hle, hfp]
    simp [hq]
  exact ⟨herr, by simp [applyOp, herr]⟩

theorem C2_witness :
    add_sale sampleDB 100 (some 1) (some 7) =
      Except.error (Err.insufficientStock 5 7) ∧
    applyOp sampleDB (Op.sale 100 (some 1) (some 7)) = sampleDB :=
  C2_insufficient_stock sampleDB 100 1 7 sampleProduct (by decide) (by decide)
    (by decide) (by decide)

/-- C3: selling a positive quantity `q` not exceeding the stock `s` of an
existing product with unit price `u` succeeds with exactly these effects:
the product's stock becomes `s - q`, one sale row with quantity `q` and
total `u * q` is inserted, one stock-log row with `change_amount = -q` and a
reason naming the sale id is appended, and the response carries the sale id
and the new stock `s - q`. -/
theorem C3_sale_success (db : DB) (now : ℤ) (pid : ℕ) (q : ℚ) (p : Product)
    (hpid : pid ≠ 0) (hfp : findProduct db pid = some p)
    (hq : 0 < q) (hle : q ≤ p.stock_quantity) :
    add_sale db now (some pid) (some q) = .ok
      ({ db with
         products := db.products.map (fun x =>
           if x.id = pid then
             { x with stock_quantity := p.stock_quantity - q, updated_at := now }
           else x)
         sales := db.sales ++ [⟨db.next_sale_id, pid, q, p.price * q, now⟩]
         stock_logs := db.stock_logs ++
           [⟨pid, -q, "Sale #" ++ toString db.next_sale_id, now⟩]
         next_sale_id := db.next_sale_id + 1 },
       ⟨db.next_sale_id, p.price * q, p.stock_quantity - q⟩) := by
  have h0 : ¬ (pid = 0 ∨ q = 0) := by
    rintro (hc | hc)
    · exact hpid hc
    · rw [hc] at hq
      exact lt_irrefl _ hq
  have hle0 : ¬ q ≤ 0 := not_le.mpr hq
  have hins : ¬ p.stock_quantity < q := not_lt.mpr hle
  unfold add_sale
  simp only []
  rw [if_neg h0, if_neg hle0, hfp]
  simp [hins]

theorem C3_witness :
    add_sale sampleDB 100 (some 1) (some 3) = Except.ok
      ({ sampleDB with
         products := sampleDB.products.map (fun x =>
           if x.id = 1 then
             { x with
               stock_quantity := sampleProduct.stock_quantity - 3
               updated_at := 100 }
           else x)
         sales := sampleDB.sales ++
           [⟨sampleDB.next_sale_id, 1, 3, sampleProduct.price * 3, 100⟩]
         stock_logs := sampleDB.stock_logs ++
           [⟨1, -3, "Sale #" ++ toString sampleDB.next_sale_id, 100⟩]
         next_sale_id := sampleDB.next_sale_id + 1 },
       ⟨sampleDB.next_sale_id, sampleProduct.price * 3,
        sampleProduct.stock_quantity - 3⟩) ∧
    sampleProduct.price * 3 = 30 ∧ sampleProduct.stock_quantity - 3 = 2 :=
  ⟨C3_sale_success sampleDB 100 1 3 sampleProduct (by decide) (by decide)
      (by norm_num) (by norm_num [sampleProduct]),
   by norm_num [sampleProduct], by norm_num [sampleProduct]⟩

/-- C4: every public operation preserves non-negativity of all stock
quantities: creation rejects negative initial stock, updates reject negative
values, sales reject quantities above the current stock, restocks only add
positive quantities; hence no operation turns a state with all stocks
non-negative into one with a negative stock. -/
theorem C4_nonneg_preserved (db : DB) (op : Op) (h : NonNegStock db) :
    NonNegStock (applyOp db op) :=
  nonneg_applyOp db op h

theorem C4_witness :
    NonNegStock sampleDB ∧
    NonNegStock (applyOp sampleDB (Op.sale 100 (some 1) (some 3))) :=
  ⟨by unfold NonNegStock; decide,
   C4_nonneg_preserved sampleDB (Op.sale 100 (some 1) (some 3))
     (by unfold NonNegStock; decide)⟩

/-- C5: a successful product update that provides `stock_quantity` appends
no stock-log row when the provided value equals the current stock (delta
zero), and appends exactly one row with `change_amount` equal to the delta
otherwise, its reason chosen by the sign of the delta (`'Stock adjustment'`
for an increase, `'Stock reduction'` for a decrease). -/
theorem C5_adjust_stock (db : DB) (pid : ℕ) (now : ℤ) (r : UpdateReq)
    (db1 : DB) (p0 : Product) (v : ℤ)
    (hfp : findProduct db pid = some p0)
    (hok : update_product db pid now r = .ok db1)
    (hv : r.stock_quantity = some v) :
    ((v : ℚ) = p0.stock_quantity → db1.stock_logs = db.stock_logs) ∧
    ((v : ℚ) ≠ p0.stock_quantity → db1.stock_logs = db.stock_logs ++
      [⟨pid, (v : ℚ) - p0.stock_quantity,
        if 0 < (v : ℚ) - p0.stock_quantity then "Stock adjustment"
        else "Stock reduction", now⟩]) := by
  obtain ⟨p0', hfp', -, -, -, -, -, -, hlogs⟩ := update_product_ok hok
  have hp0 : p0' = p0 := Option.some.inj (hfp'.symm.trans hfp)
  subst hp0
  rw [hv] at hlogs
  simp only [] at hlogs
  constructor
  · intro he
    rw [hlogs, if_neg (by rw [he]; simp), List.append_nil]
  · intro hne
    rw [hlogs, if_pos (sub_ne_zero.mpr hne)]

theorem C5_witness :
    update_product sampleDB 1 200 sampleReqSame = Except.ok sampleAfterSame ∧
    sampleAfterSame.stock_logs = sampleDB.stock_logs := by
  have hok : update_product sampleDB 1 200 sampleReqSame =
      Except.ok sampleAfterSame := by
    unfold update_product sampleReqSame
    rw [show findProduct sampleDB 1 = some sampleProduct from by decide]
    norm_num [UpdateReq.isEmpty, applyUpdates, sampleProduct]
    decide
  refine ⟨hok, ?_⟩
  exact (C5_adjust_stock sampleDB 1 200 sampleReqSame sampleAfterSame
    sampleProduct 5 (by decide) hok rfl).1 (by norm_num [sampleProduct])

/-- C6: creating a product whose (stripped) sku already exists fails with
the conflict error and leaves the database unchanged; this is enforced both
by the application-level pre-check and by the store-level unique constraint
on the insert, whose violation the handler translates to the same
`"SKU already exists"` error instead of leaking a raw store error. -/
theorem C6_duplicate_sku (db : DB) (now : ℤ) (name sku : String) (cid : ℕ)
    (price pp : ℚ) (sq? msl? : Option ℤ)
    (hne : ¬(pyStrip name = "" ∨ pyStrip sku = "")) (hpr : ¬ price ≤ 0)
    (hppn : ¬ pp < 0) (hsqn : ¬ (sq?.getD 0 : ℤ) < 0)
    (hdup : ∃ p ∈ db.products, p.sku = pyStrip sku) :
    create_product db now ⟨some name, some sku, some cid, some price, some pp,
      sq?, msl?⟩ = .error (.conflict "SKU already exists") ∧
    applyOp db (Op.create now ⟨some name, some sku, some cid, some price,
      some pp, sq?, msl?⟩) = db ∧
    ∀ prod : Product, prod.sku = pyStrip sku →
      insertProductRow db prod = .error () := by
  have hfind : (db.products.find? (fun p => decide (p.sku = pyStrip sku))).isSome = true := by
    rw [List.find?_isSome]
    obtain ⟨p, hp, hps⟩ := hdup
    exact ⟨p, hp, by simp [hps]⟩
  have herr : create_product db now ⟨some name, some sku, some cid, some price,
      some pp, sq?, msl?⟩ = .error (.conflict "SKU already exists") := by
    unfold create_product
    simp only [Option.isNone_some, Bool.false_eq_true, if_false, Option.getD_some]
    rw [if_neg hne, if_neg hpr, if_neg hppn, if_neg hsqn, if_pos hfind]
  refine ⟨herr, by simp [applyOp, herr], ?_⟩
  intro prod hps
  unfold insertProductRow
  rw [if_pos]
  rw [List.any_eq_true]
  obtain ⟨p, hp, hps2⟩ := hdup
  exact ⟨p, hp, by simp [hps2, hps]⟩

theorem C6_witness :
    create_product sampleDB 0 sampleCreateReq =
      Except.error (Err.conflict "SKU already exists") ∧
    applyOp sampleDB (Op.create 0 sampleCreateReq) = sampleDB ∧
    insertProductRow sampleDB sampleProduct = Except.error () := by
  have h := C6_duplicate_sku sampleDB 0 "Widget" "W-1" 1 10 4 (some 5) none
    (by decide) (by norm_num) (by norm_num) (by decide)
    ⟨sampleProduct, by decide, by decide⟩
  exact ⟨h.1, h.2.1, h.2.2 sampleProduct (by decide)⟩

/-- C7 (amended): a missing, zero or negative sale quantity is rejected with
an invalid-argument error before any store write, leaving the database
unchanged; however the handler never checks that the quantity is an integer,
so a positive non-integer quantity is accepted and proceeds to the store
(see the counterexample). -/
theorem C7_invalid_quantity (db : DB) (now : ℤ) (pid? : Option ℕ)
    (q? : Option ℚ) (hq : q? = none ∨ ∃ q, q? = some q ∧ q ≤ 0) :
    (∃ m, add_sale db now pid? q? = .error (.invalidArgument m)) ∧
    applyOp db (Op.sale now pid? q?) = db := by
  have herr : ∃ m, add_sale db now pid? q? = .error (.invalidArgument m) := by
    rcases hq with rfl | ⟨q, rfl, hq0⟩
    · cases pid? <;> exact ⟨_, rfl⟩
    · cases pid? with
      | none => exact ⟨_, rfl⟩
      | some pid =>
        by_cases h0 : pid = 0 ∨ q = 0
        · refine ⟨"product_id and quantity are required", ?_⟩
          unfold add_sale
          simp only []
          rw [if_pos h0]
        · refine ⟨"Quantity must be greater than 0", ?_⟩
          unfold add_sale
          simp only []
          rw [if_neg h0, if_pos hq0]
  obtain ⟨m, hm⟩ := herr
  exact ⟨⟨m, hm⟩, by simp [applyOp, hm]⟩

theorem C7_witness :
    (∃ m, add_sale sampleDB 0 (some 1) (some 0) =
      Except.error (Err.invalidArgument m)) ∧
    applyOp sampleDB (Op.sale 0 (some 1) (some 0)) = sampleDB :=
  C7_invalid_quantity sampleDB 0 (some 1) (some 0)
    (Or.inr ⟨0, rfl, le_refl 0⟩)

/-- C7 counterexample: the quantity 5/2 is not an integer and is positive;
`add_sale` accepts it (the handler only tests `quantity <= 0`) and commits a
sale, refuting the claim that every non-integer quantity fails with an
invalid-argument error before any store access. -/
theorem C7_counterexample :
    fracQ.den ≠ 1 ∧ 0 < fracQ ∧
    (add_sale sampleDB 100 (some 1) (some fracQ)).isOk = true := by
  refine ⟨by decide, by decide, ?_⟩
  decide

/-- C8: the dashboard's `sales_trend` is exactly one entry per trailing
calendar day `dayOf now - 6, ..., dayOf now` in ascending order (so always 7
entries, the last being today), and each entry's value is the sum of
`total_price` over the sales of that calendar day — the rolling
`sale_date >= now - 7 days` pre-filter never drops a row of those days, and
a day without sales contributes the empty sum 0. -/
theorem C8_sales_trend_calendar (db : DB) (now : ℤ) :
    sales_trend db now = (List.range 7).map (fun (i : ℕ) =>
      (dayOf now - 6 + (i : ℤ), dailyTotal db.sales (dayOf now - 6 + (i : ℤ)))) := by
  unfold sales_trend
  refine List.map_congr_left ?_
  intro i hi
  rw [List.mem_range] at hi
  have hk : ((6 - i : ℕ) : ℤ) = 6 - (i : ℤ) := by omega
  have hday : dayOf (now - ((6 - i : ℕ) : ℤ) * 86400) = dayOf now - 6 + (i : ℤ) := by
    rw [dayOf_sub_days, hk]
    ring
  have hd : dayOf now - 6 ≤ dayOf now - 6 + (i : ℤ) := by
    have h0 : (0 : ℤ) ≤ (i : ℤ) := Int.natCast_nonneg i
    linarith
  show (dayOf (now - ((6 - i : ℕ) : ℤ) * 86400),
      dailyTotal (salesInWindow db now) (dayOf (now - ((6 - i : ℕ) : ℤ) * 86400))) = _
  rw [hday, dailyTotal_window db now _ hd]

/-- C9 (amended): the sales listing takes no limit parameter — the `LIMIT`
is hard-coded to 100.  It returns `min 100 n` of the `n` sale rows joined
with their product's name and sku, sorted descending by `sale_date`, and
every returned row is at least as recent as every joined row it cuts off. -/
theorem C9_sales_listing (db : DB) :
    (get_sales db).length = min 100 (joinedSales db).length ∧
    (get_sales db).Sorted saleViewGE ∧
    (∀ v ∈ get_sales db, ∃ s ∈ db.sales, ∃ p, findProduct db s.product_id = some p ∧
      v = ⟨s.id, s.product_id, p.name, p.sku, s.quantity, s.total_price, s.sale_date⟩) ∧
    (∀ v ∈ get_sales db, ∀ w ∈ (sortedSales db).drop 100, w.sale_date ≤ v.sale_date) := by
  refine ⟨get_sales_length db, ?_, ?_, ?_⟩
  · exact List.Pairwise.sublist (List.take_sublist _ _) (sortedSales_sorted db)
  · intro v hv
    have hv1 : v ∈ (sortedSales db).take 100 := hv
    have hv2 : v ∈ joinedSales db :=
      (sortedSales_perm db).mem_iff.mp (List.mem_of_mem_take hv1)
    rw [joinedSales, List.mem_filterMap] at hv2
    obtain ⟨s, hs, hmap⟩ := hv2
    rcases hfp : findProduct db s.product_id with _ | p
    · rw [hfp] at hmap
      cases hmap
    · rw [hfp] at hmap
      simp only [Option.map_some', Option.some.injEq] at hmap
      exact ⟨s, hs, p, hfp, hmap.symm⟩
  · intro v hv w hw
    have hp := sortedSales_sorted db
    rw [← List.take_append_drop 100 (sortedSales db)] at hp
    exact (List.pairwise_append.mp hp).2.2 v hv w hw

/-- C9 counterexample: with 101 sale rows, all joinable to a product, the
listing returns only 100 rows; the handler has no limit parameter, so no
request can obtain the 101 most recent records, refuting the claim for the
requested limit 101. -/
theorem C9_counterexample :
    manySalesDB.sales.length = 101 ∧ (joinedSales manySalesDB).length = 101 ∧
    (get_sales manySalesDB).length = 100 := by
  refine ⟨by decide, by decide, ?_⟩
  rw [get_sales_length,
    show (joinedSales manySalesDB).length = 101 from by decide]
  omega

/-- C10: for every creation request that passes validation, independently:
if the request omits `stock_quantity` the created product has stock 0 and no
stock-log row is appended (the `'Initial stock'` row is written only for
strictly positive initial stock), and if the request omits
`min_stock_level` the created product's threshold defaults to 5. -/
theorem C10_defaults (db : DB) (now : ℤ) (r : CreateReq) (db1 : DB) (pid : ℕ)
    (hok : create_product db now r = .ok (db1, pid)) :
    ∃ prod, db1.products = db.products ++ [prod] ∧
      (r.stock_quantity = none →
        prod.stock_quantity = 0 ∧ db1.stock_logs = db.stock_logs) ∧
      (r.min_stock_level = none → prod.min_stock_level = 5) := by
  obtain ⟨prod, -, -, -, hsqv, hmslv, -, hdb1⟩ := create_product_ok hok
  refine ⟨prod, by rw [hdb1], ?_, ?_⟩
  · intro hsq
    have hzero : prod.stock_quantity = 0 := by
      rw [hsqv, hsq]
      simp
    refine ⟨hzero, ?_⟩
    rw [hdb1]
    show db.stock_logs ++ (if 0 < prod.stock_quantity then _ else []) = db.stock_logs
    rw [if_neg (by rw [hzero]; exact lt_irrefl 0), List.append_nil]
  · intro hmsl
    rw [hmslv, hmsl]
    rfl

theorem C10_witness :
    create_product omitDB 7 omitStockReq = Except.ok (omitStockResultDB, 1) ∧
    omitStockResultDB.stock_logs = omitDB.stock_logs ∧
    create_product omitDB 7 omitThreshReq = Except.ok (omitThreshResultDB, 1) := by
  have hok1 : create_product omitDB 7 omitStockReq =
      Except.ok (omitStockResultDB, 1) := by decide
  have hok2 : create_product omitDB 7 omitThreshReq =
      Except.ok (omitThreshResultDB, 1) := by decide
  obtain ⟨prod1, hprods1, hstock1, -⟩ :=
    C10_defaults omitDB 7 omitStockReq omitStockResultDB 1 hok1
  obtain ⟨prod2, hprods2, -, hthresh2⟩ :=
    C10_defaults omitDB 7 omitThreshReq omitThreshResultDB 1 hok2
  have hdefault : prod2.min_stock_level = 5 := hthresh2 rfl
  exact ⟨hok1, (hstock1 rfl).2, hok2⟩

end IMS
